import Mathlib

/-!
Verification development for the order-fulfillment saga: an in-process
event-driven system with three services (order saga, inventory ledger,
shipment tracker) communicating over a synchronous publish/subscribe bus.

Shallow embedding notes.
JavaScript `Map<string, T>` values are embedded as association lists in
insertion order; `Map.get` is first-match lookup and in-place mutation of
the object returned by `get` is first-match update (keys are unique in a
`Map`, and first-match update touches exactly the object `get` returned).
JavaScript numbers are used by this program only as integers under
`+`, `-` and comparisons, so quantities are embedded as `Int`.
`Date` timestamps (`createdAt` / `updatedAt`) carry no logic and are
omitted. The event bus dispatches synchronously: `publish` runs every
subscribed handler before returning; an `async` handler runs
synchronously up to its first `await`. The inventory handler for
OrderPlaced suspends at an awaited timer before its first observable
effect, so its processing is modelled as a separate step that the event
loop runs after `createOrder` returns; all other handlers are
synchronous and are modelled inside `publish` itself.
-/

namespace Backend

abbrev ProductId := String

/-- Embeds `InventoryItem` from the inventory service. -/
structure InventoryItem where
  productId : ProductId
  quantity : Int
  reserved : Int
deriving Repr, DecidableEq

/-- Embeds `OrderItem` from the order service. -/
structure OrderItem where
  productId : ProductId
  quantity : Int
deriving Repr, DecidableEq

/-- Embeds `OrderStatus`; the source string "partial" is the constructor
`partiallyFulfilled` (the source word is a Lean keyword). -/
inductive OrderStatus where
  | pending
  | processing
  | partiallyFulfilled
  | fulfilled
  | cancelled
deriving Repr, DecidableEq

/-- A terminal status is one from which the saga defines no further
transition: "partial", "fulfilled" or "cancelled". -/
def OrderStatus.isTerminal : OrderStatus → Bool
  | .partiallyFulfilled => true
  | .fulfilled => true
  | .cancelled => true
  | _ => false

/-- Embeds `Order` (timestamps omitted, see module comment). -/
structure Order where
  id : String
  items : List OrderItem
  status : OrderStatus
  fulfillableItems : List OrderItem
  unfulfillableItems : List OrderItem
deriving Repr, DecidableEq

/-- Embeds `ShipmentStatus`. -/
inductive ShipmentStatus where
  | pending
  | shipped
  | delivered
deriving Repr, DecidableEq

/-- Embeds `ShipmentItem` (timestamp omitted). -/
structure ShipmentItem where
  orderId : String
  productId : ProductId
  quantity : Int
  status : ShipmentStatus
deriving Repr, DecidableEq

/-- The domain events published on the bus during the synchronous part of
the saga. ItemShipped / ItemDelivered arise only from the shipment
tracker's timer-driven progression, outside the embedded run. -/
inductive Event where
  | orderPlaced (orderId : String) (items : List OrderItem)
  | stockReserved (orderId : String) (items : List OrderItem)
  | outOfStock (orderId : String) (productId : ProductId)
      (requestedQuantity availableQuantity : Int)
  | orderReadyForShipping (orderId : String) (items : List OrderItem)
deriving Repr, DecidableEq

def Event.isStockReserved : Event → Bool
  | .stockReserved _ _ => true
  | _ => false

def Event.isOutOfStock : Event → Bool
  | .outOfStock _ _ _ _ => true
  | _ => false

/-! ## Inventory ledger (`InventoryService`) -/

/-- Embeds `this.inventory.get(productId)`. -/
def findItem (inv : List InventoryItem) (pid : ProductId) : Option InventoryItem :=
  inv.find? (fun it => decide (it.productId = pid))

/-- In-place mutation of the inventory record returned by `Map.get`:
first-match update of the `reserved` field. -/
def updateReserved (inv : List InventoryItem) (pid : ProductId) (r : Int) :
    List InventoryItem :=
  match inv with
  | [] => []
  | it :: rest =>
    if it.productId = pid then { it with reserved := r } :: rest
    else it :: updateReserved rest pid r

/-- Embeds `this.lockMap` with `Map.set` semantics (replace the entry if
the key is present, append otherwise). -/
def setLock (lm : List (ProductId × Bool)) (pid : ProductId) (v : Bool) :
    List (ProductId × Bool) :=
  match lm with
  | [] => [(pid, v)]
  | p :: rest => if p.1 = pid then (pid, v) :: rest else p :: setLock rest pid v

def getLock (lm : List (ProductId × Bool)) (pid : ProductId) : Option Bool :=
  (lm.find? (fun p => decide (p.1 = pid))).map (fun p => p.2)

/-- State owned by the inventory service: the per-product records and the
per-product busy-wait flags used as locks. -/
structure InvState where
  inventory : List InventoryItem
  lockMap : List (ProductId × Bool)
deriving Repr, DecidableEq

structure ReserveResult where
  success : Bool
  availableQuantity : Int
deriving Repr, DecidableEq

/-- Embeds `InventoryService.tryReserveStock`. The busy-wait loop spins
until the flag for `productId` is clear; under the cooperative (single
event loop) scheduling of the runtime the body then runs without
suspension, so one call is one atomic step: it sets the flag, reads and
possibly updates the record, and the `finally` clause clears the flag
before returning on every path (missing record, success, failure). -/
def tryReserveStock (s : InvState) (productId : ProductId) (quantity : Int) :
    ReserveResult × InvState :=
  let locked : InvState := { s with lockMap := setLock s.lockMap productId true }
  match findItem locked.inventory productId with
  | none =>
    (⟨false, 0⟩, { locked with lockMap := setLock locked.lockMap productId false })
  | some item =>
    let availableQuantity := item.quantity - item.reserved
    if availableQuantity ≥ quantity then
      (⟨true, availableQuantity⟩,
        { inventory := updateReserved locked.inventory productId (item.reserved + quantity),
          lockMap := setLock locked.lockMap productId false })
    else
      (⟨false, availableQuantity⟩,
        { locked with lockMap := setLock locked.lockMap productId false })

/-- Embeds `InventoryService.releaseStock`. -/
def releaseStock (inv : List InventoryItem) (productId : ProductId) (quantity : Int) :
    List InventoryItem :=
  match findItem inv productId with
  | some item =>
    if item.reserved ≥ quantity then updateReserved inv productId (item.reserved - quantity)
    else inv
  | none => inv

/-- Embeds `InventoryService.addInventory`. -/
def addInventory (inv : List InventoryItem) (pid : ProductId) (q : Int) :
    List InventoryItem :=
  match inv with
  | [] => [⟨pid, q, 0⟩]
  | it :: rest =>
    if it.productId = pid then { it with quantity := it.quantity + q } :: rest
    else it :: addInventory rest pid q

/-- Embeds `InventoryService.initializeInventory`: the sample stock the
service seeds at construction. -/
def initialStock : List InventoryItem :=
  addInventory (addInventory (addInventory [] "PROD-1" 10) "PROD-2" 5) "PROD-3" 15

/-- The two operations that contend on an inventory record. Under the
cooperative scheduler each `tryReserveStock` critical section (and each
synchronous `releaseStock` call) runs without suspension, so an
arbitrary concurrent interleaving of calls from any number of orders is
an arbitrary finite sequence of these atomic operations. -/
inductive InvOp where
  | tryReserve (productId : ProductId) (quantity : Int)
  | release (productId : ProductId) (quantity : Int)
deriving Repr, DecidableEq

def InvOp.quantity : InvOp → Int
  | .tryReserve _ q => q
  | .release _ q => q

def applyInvOp (s : InvState) : InvOp → InvState
  | .tryReserve pid q => (tryReserveStock s pid q).2
  | .release pid q => { s with inventory := releaseStock s.inventory pid q }

def applyInvOps (s : InvState) (ops : List InvOp) : InvState :=
  ops.foldl applyInvOp s

/-- The inventory-record invariant of the specification:
`0 <= reserved <= quantity` for every record. -/
def inventoryOk (inv : List InventoryItem) : Bool :=
  inv.all (fun it => decide (0 ≤ it.reserved ∧ it.reserved ≤ it.quantity))

/-! ## Order saga (`OrderService`) -/

/-- Embeds `this.orders.get(orderId)`. -/
def getOrder (orders : List Order) (orderId : String) : Option Order :=
  orders.find? (fun o => decide (o.id = orderId))

/-- Embeds `this.orders.set(o.id, o)` and, equivalently, in-place mutation
of the object `Map.get` returned: first-match replacement by id, append
when absent. -/
def setOrder (orders : List Order) (o : Order) : List Order :=
  match orders with
  | [] => [o]
  | x :: rest => if x.id = o.id then o :: rest else x :: setOrder rest o

/-- Embeds `OrderService.isOrderComplete`. -/
def isOrderComplete (o : Order) : Bool :=
  o.fulfillableItems.length + o.unfulfillableItems.length == o.items.length

/-- The "totalItemsProcessed" count read by `isOrderComplete`: outcome
records accumulated so far. -/
def processedCount (o : Order) : Nat :=
  o.fulfillableItems.length + o.unfulfillableItems.length

/-- Body of `OrderService.handleStockReserved` after the order lookup: the
mutation applied to the looked-up order object, together with the events
the handler publishes. The source publishes OrderReadyForShipping and then
sets the status; the shipping subscriber does not read the order, so
returning the publication list alongside the already-updated order is
observationally the same sequencing. -/
def applyStockReserved (o : Order) (items : List OrderItem) : Order × List Event :=
  let o := { o with fulfillableItems := o.fulfillableItems ++ items }
  if isOrderComplete o then
    ({ o with status := if o.unfulfillableItems.length > 0 then .partiallyFulfilled else .fulfilled },
      [Event.orderReadyForShipping o.id o.fulfillableItems])
  else (o, [])

/-- Embeds `OrderService.handleStockReserved`: look up the order by the
event's orderId (unknown order: no effect), apply the mutation. -/
def handleStockReserved (orders : List Order) (orderId : String)
    (items : List OrderItem) : List Order × List Event :=
  match getOrder orders orderId with
  | none => (orders, [])
  | some order =>
    let r := applyStockReserved order items
    (setOrder orders r.1, r.2)

/-- Body of `OrderService.handleOutOfStock` after the order lookup: append
one unfulfillable line of quantity `requested - available`; when
`available > 0` also append a fulfillable line of quantity `available`;
then run the completion check, which publishes OrderReadyForShipping when
anything is fulfillable and sets the terminal status. -/
def applyOutOfStock (o : Order) (productId : ProductId)
    (requestedQuantity availableQuantity : Int) : Order × List Event :=
  let o := { o with unfulfillableItems :=
    o.unfulfillableItems ++ [⟨productId, requestedQuantity - availableQuantity⟩] }
  let o := if availableQuantity > 0 then
      { o with fulfillableItems := o.fulfillableItems ++ [⟨productId, availableQuantity⟩] }
    else o
  if isOrderComplete o then
    (({ o with status := if o.fulfillableItems.length > 0 then .partiallyFulfilled else .cancelled }),
      if o.fulfillableItems.length > 0 then [Event.orderReadyForShipping o.id o.fulfillableItems] else [])
  else (o, [])

/-- Embeds `OrderService.handleOutOfStock`. -/
def handleOutOfStock (orders : List Order) (orderId : String) (productId : ProductId)
    (requestedQuantity availableQuantity : Int) : List Order × List Event :=
  match getOrder orders orderId with
  | none => (orders, [])
  | some order =>
    let r := applyOutOfStock order productId requestedQuantity availableQuantity
    (setOrder orders r.1, r.2)

/-! ## Shipment tracker (`ShippingService`) -/

def getShipments (sh : List (String × List ShipmentItem)) (orderId : String) :
    Option (List ShipmentItem) :=
  (sh.find? (fun p => decide (p.1 = orderId))).map (fun p => p.2)

def setShipments (sh : List (String × List ShipmentItem)) (orderId : String)
    (items : List ShipmentItem) : List (String × List ShipmentItem) :=
  match sh with
  | [] => [(orderId, items)]
  | p :: rest =>
    if p.1 = orderId then (orderId, items) :: rest else p :: setShipments rest orderId items

/-- Embeds `ShippingService.handleOrderReadyForShipping`: materialize one
pending shipment line per fulfillable item and store them under the order
id. The timer-driven pending → shipped → delivered progression happens
after the synchronous run and is not part of this step. -/
def handleOrderReadyForShipping (sh : List (String × List ShipmentItem))
    (orderId : String) (items : List OrderItem) : List (String × List ShipmentItem) :=
  setShipments sh orderId
    (items.map (fun it => ⟨orderId, it.productId, it.quantity, .pending⟩))

/-! ## The event bus and the synchronous saga run

`SagaState` gathers the state of the three services plus the bus trace:
the list of every event published, in publication order. Synchronous
dispatch means an event is appended to the trace and its subscribed
synchronous handlers run before `publish` returns; the handlers of the
order saga may themselves publish OrderReadyForShipping, which is
dispatched to the shipment tracker recursively (that handler publishes
nothing further synchronously). -/

structure SagaState where
  orders : List Order
  inv : InvState
  shipments : List (String × List ShipmentItem)
  trace : List Event
deriving Repr, DecidableEq

/-- Dispatch of one OrderReadyForShipping publication: record it on the
trace and run the shipment tracker's subscriber. -/
def publishRFS (s : SagaState) (orderId : String) (items : List OrderItem) : SagaState :=
  { s with trace := s.trace ++ [Event.orderReadyForShipping orderId items],
           shipments := handleOrderReadyForShipping s.shipments orderId items }

/-- Dispatch the publications an order-saga handler emitted (always
OrderReadyForShipping events). -/
def deliverPubs (s : SagaState) (pubs : List Event) : SagaState :=
  pubs.foldl
    (fun s e =>
      match e with
      | .orderReadyForShipping oid items => publishRFS s oid items
      | _ => s)
    s

/-- Publish one OutOfStock event: record it, run the order saga's
subscriber synchronously, then dispatch whatever it published. -/
def publishOOS (s : SagaState) (orderId : String) (productId : ProductId)
    (requestedQuantity availableQuantity : Int) : SagaState :=
  let s := { s with trace :=
    s.trace ++ [Event.outOfStock orderId productId requestedQuantity availableQuantity] }
  let r := handleOutOfStock s.orders orderId productId requestedQuantity availableQuantity
  deliverPubs { s with orders := r.1 } r.2

/-- Publish one StockReserved event, same shape as `publishOOS`. -/
def publishSR (s : SagaState) (orderId : String) (items : List OrderItem) : SagaState :=
  let s := { s with trace := s.trace ++ [Event.stockReserved orderId items] }
  let r := handleStockReserved s.orders orderId items
  deliverPubs { s with orders := r.1 } r.2

/-- The per-line loop of `InventoryService.handleOrderPlaced`: lines are
processed strictly in request order, one at a time; a successful
reservation is accumulated (with the full requested quantity), a failed
one publishes OutOfStock immediately, inside the loop. Returns the state
after the loop and the accumulated reservations list. -/
def placeLines (s : SagaState) (orderId : String) :
    List OrderItem → List OrderItem → SagaState × List OrderItem
  | [], reservations => (s, reservations)
  | item :: rest, reservations =>
    let r := tryReserveStock s.inv item.productId item.quantity
    let s := { s with inv := r.2 }
    if r.1.success then
      placeLines s orderId rest (reservations ++ [⟨item.productId, item.quantity⟩])
    else
      placeLines (publishOOS s orderId item.productId item.quantity r.1.availableQuantity)
        orderId rest reservations

/-- Embeds `InventoryService.handleOrderPlaced`: run the per-line loop,
then publish one StockReserved event carrying the accumulated
reservations when that list is non-empty. -/
def handleOrderPlacedRun (s : SagaState) (orderId : String)
    (items : List OrderItem) : SagaState :=
  let r := placeLines s orderId items []
  if r.2.length > 0 then publishSR r.1 orderId r.2 else r.1

/-- Embeds `OrderService.createOrder`, with the fresh uuid passed in as
`newId`. The order is stored with status "pending", OrderPlaced is
published (its asynchronous subscriber suspends at an awaited timer
before any observable effect, so only the trace records it here), then
the status is set to "processing" before returning. The source returns
the very object it stored and then mutated, so the returned order carries
status "processing". -/
def createOrder (s : SagaState) (newId : String) (items : List OrderItem) :
    Order × SagaState :=
  let order : Order := ⟨newId, items, .pending, [], []⟩
  let s := { s with orders := setOrder s.orders order,
                    trace := s.trace ++ [Event.orderPlaced newId items] }
  let order : Order := { order with status := .processing }
  let s := { s with orders := setOrder s.orders order }
  (order, s)

/-- A complete deterministic run for one order against a starting
inventory: `createOrder` followed by the event-loop resumption of the
inventory's OrderPlaced handler. -/
def runOrder (inv0 : List InventoryItem) (newId : String) (items : List OrderItem) :
    SagaState :=
  let s0 : SagaState := ⟨[], ⟨inv0, []⟩, [], []⟩
  let r := createOrder s0 newId items
  handleOrderPlacedRun r.2 newId items

/-! ## Concrete scenario states -/

/-- Scenario B of the specification: the seeded stock and the two-line
order requesting 7 of PROD-2 (5 in stock) and 3 of PROD-3 (15 in stock). -/
def scenarioB : SagaState :=
  runOrder initialStock "order-B" [⟨"PROD-2", 7⟩, ⟨"PROD-3", 3⟩]

/-- The state of scenario B just after the inventory loop, before the
StockReserved event for the granted PROD-3 line is published: the order
is already terminal by then. -/
def scenarioBMid : SagaState :=
  (placeLines (createOrder ⟨[], ⟨initialStock, []⟩, [], []⟩ "order-B"
      [⟨"PROD-2", 7⟩, ⟨"PROD-3", 3⟩]).2
    "order-B" [⟨"PROD-2", 7⟩, ⟨"PROD-3", 3⟩] []).1

/-- A single-line order whose one line is partially satisfiable: 7 of
PROD-2 requested with 5 in stock. -/
def scenarioSplit : SagaState := runOrder initialStock "order-X" [⟨"PROD-2", 7⟩]

/-! ## Shared lemmas -/

theorem getOrder_setOrder_self (orders : List Order) (o : Order) :
    getOrder (setOrder orders o) o.id = some o := by
  induction orders with
  | nil => simp [setOrder, getOrder, List.find?]
  | cons x rest ih =>
    by_cases h : x.id = o.id
    · simp [setOrder, h, getOrder, List.find?]
    · simpa [setOrder, h, getOrder, List.find?] using ih

theorem inventoryOk_iff (inv : List InventoryItem) :
    inventoryOk inv = true ↔ ∀ it ∈ inv, 0 ≤ it.reserved ∧ it.reserved ≤ it.quantity := by
  simp [inventoryOk, List.all_eq_true]

theorem updateReserved_ok (inv : List InventoryItem) (pid : ProductId) (r : Int) :
    inventoryOk inv = true →
    (∀ it, findItem inv pid = some it → 0 ≤ r ∧ r ≤ it.quantity) →
    inventoryOk (updateReserved inv pid r) = true := by
  induction inv with
  | nil => intro h _; simpa [updateReserved] using h
  | cons it rest ih =>
    intro hok hr
    rw [inventoryOk_iff] at hok
    by_cases h : it.productId = pid
    · rw [show updateReserved (it :: rest) pid r = { it with reserved := r } :: rest from by
        simp [updateReserved, h]]
      have hb := hr it (by simp [findItem, List.find?, h])
      rw [inventoryOk_iff]
      intro x hx
      rcases List.mem_cons.mp hx with hx | hx
      · subst hx; exact hb
      · exact hok x (List.mem_cons_of_mem _ hx)
    · rw [show updateReserved (it :: rest) pid r = it :: updateReserved rest pid r from by
        simp [updateReserved, h]]
      rw [inventoryOk_iff]
      intro x hx
      rcases List.mem_cons.mp hx with hx | hx
      · subst hx; exact hok x (List.mem_cons_self _ _)
      · have hrest := ih
          (by rw [inventoryOk_iff]; intro y hy; exact hok y (List.mem_cons_of_mem _ hy))
          (fun y hy => hr y (by simpa [findItem, List.find?, h] using hy))
        exact (inventoryOk_iff _).mp hrest x hx

theorem applyInvOp_ok (s : InvState) (op : InvOp) :
    0 ≤ op.quantity → inventoryOk s.inventory = true →
    inventoryOk (applyInvOp s op).inventory = true := by
  intro hq hok
  cases op with
  | tryReserve pid q =>
    simp only [InvOp.quantity] at hq
    simp only [applyInvOp, tryReserveStock]
    cases hfind : findItem s.inventory pid with
    | none => simpa [hfind] using hok
    | some item =>
      have hb := (inventoryOk_iff _).mp hok item (List.mem_of_find?_eq_some hfind)
      by_cases hav : item.quantity - item.reserved ≥ q
      · simp only [hfind, hav, if_pos]
        refine updateReserved_ok _ _ _ hok (fun it hit => ?_)
        rw [hfind] at hit
        injection hit with hit
        subst hit
        exact ⟨by omega, by omega⟩
      · simpa [hfind, hav] using hok
  | release pid q =>
    simp only [InvOp.quantity] at hq
    simp only [applyInvOp, releaseStock]
    cases hfind : findItem s.inventory pid with
    | none => simpa [hfind] using hok
    | some item =>
      have hb := (inventoryOk_iff _).mp hok item (List.mem_of_find?_eq_some hfind)
      by_cases hge : item.reserved ≥ q
      · simp only [hfind, hge, if_pos]
        refine updateReserved_ok _ _ _ hok (fun it hit => ?_)
        rw [hfind] at hit
        injection hit with hit
        subst hit
        exact ⟨by omega, by omega⟩
      · simpa [hfind, hge] using hok

theorem getLock_setLock_same (lm : List (ProductId × Bool)) (pid : ProductId) (v : Bool) :
    getLock (setLock lm pid v) pid = some v := by
  induction lm with
  | nil => simp [setLock, getLock, List.find?]
  | cons p rest ih =>
    by_cases h : p.1 = pid
    · simp [setLock, h, getLock, List.find?]
    · simpa [setLock, h, getLock, List.find?] using ih

theorem findItem_updateReserved (inv : List InventoryItem) (pid : ProductId)
    (r : Int) (item : InventoryItem) (hfind : findItem inv pid = some item) :
    findItem (updateReserved inv pid r) pid = some { item with reserved := r } := by
  induction inv with
  | nil => simp [findItem, List.find?] at hfind
  | cons it rest ih =>
    by_cases h : it.productId = pid
    · have hit : it = item := by simpa [findItem, List.find?, h] using hfind
      subst hit
      simp [updateReserved, findItem, List.find?, h]
    · have htail : findItem rest pid = some item := by
        simpa [findItem, List.find?, h] using hfind
      simpa [updateReserved, findItem, List.find?, h] using ih htail

theorem getOrder_id_eq (orders : List Order) (oid : String) (o : Order)
    (hfind : getOrder orders oid = some o) : o.id = oid := by
  simp only [getOrder] at hfind
  simpa using List.find?_some hfind

theorem applyOutOfStock_lists (o : Order) (pid : ProductId) (req avail : Int) :
    (applyOutOfStock o pid req avail).1.id = o.id ∧
    (applyOutOfStock o pid req avail).1.items = o.items ∧
    (applyOutOfStock o pid req avail).1.unfulfillableItems =
      o.unfulfillableItems ++ [⟨pid, req - avail⟩] ∧
    (applyOutOfStock o pid req avail).1.fulfillableItems =
      o.fulfillableItems ++ (if avail > 0 then [⟨pid, avail⟩] else []) := by
  simp only [applyOutOfStock]
  split_ifs <;> simp_all

theorem handleOutOfStock_getOrder (orders : List Order) (oid : String)
    (pid : ProductId) (req avail : Int) (o : Order)
    (hfind : getOrder orders oid = some o) :
    getOrder (handleOutOfStock orders oid pid req avail).1 oid =
      some (applyOutOfStock o pid req avail).1 := by
  have hid : (applyOutOfStock o pid req avail).1.id = oid := by
    rw [(applyOutOfStock_lists o pid req avail).1]
    exact getOrder_id_eq orders oid o hfind
  simp only [handleOutOfStock, hfind]
  rw [← hid]
  exact getOrder_setOrder_self orders (applyOutOfStock o pid req avail).1

/-! ## Claim theorems -/

/-- C1: for every starting inventory satisfying the invariant
`0 <= reserved <= quantity` on every record, and every finite
interleaving of `tryReserveStock` and `releaseStock` calls with
nonnegative requested quantities — the only calls the saga issues, since
order line quantities are the requested amounts — the invariant holds
again after the sequence. Every prefix of an interleaving is itself an
interleaving, so the invariant holds at all intermediate points as well;
in particular the reserved amount (the sum of currently granted
reservations) never exceeds the total quantity of a product. -/
theorem inventory_invariant_all_interleavings (s : InvState) (ops : List InvOp)
    (hq : ∀ op ∈ ops, 0 ≤ op.quantity)
    (hok : inventoryOk s.inventory = true) :
    inventoryOk (applyInvOps s ops).inventory = true := by
  induction ops generalizing s with
  | nil => simpa [applyInvOps] using hok
  | cons op rest ih =>
    have h1 := applyInvOp_ok s op (hq op (List.mem_cons_self _ _)) hok
    simpa [applyInvOps, List.foldl_cons] using
      ih (applyInvOp s op) (fun o ho => hq o (List.mem_cons_of_mem _ ho)) h1

/-- Witness for C1: two orders contending for PROD-1 (10 in stock),
interleaved at reservation granularity, with a compensating release. -/
theorem inventory_invariant_witness :
    (∀ op ∈ ([.tryReserve "PROD-1" 7, .tryReserve "PROD-1" 5,
              .release "PROD-1" 7, .tryReserve "PROD-1" 5] : List InvOp),
      0 ≤ op.quantity) ∧
    inventoryOk (applyInvOps ⟨initialStock, []⟩
      [.tryReserve "PROD-1" 7, .tryReserve "PROD-1" 5,
       .release "PROD-1" 7, .tryReserve "PROD-1" 5]).inventory = true :=
  ⟨by decide, inventory_invariant_all_interleavings _ _ (by decide) (by decide)⟩

/-- C3: evaluation of the code on Scenario B (stock PROD-2 = 5,
PROD-3 = 15; order requests 7 of PROD-2 and 3 of PROD-3). The saga does
record 5 of PROD-2 fulfillable, 2 of PROD-2 unfulfillable and 3 of PROD-3
fulfillable, and ends terminal "partial" — but the shipment tracker
creates exactly ONE shipment line (5 of PROD-2), not the two the claim
and the repository's own test expect: the completion check fires on the
PROD-2 OutOfStock alone (that event adds one line to each list, making
2 outcome lines = 2 requested lines), so OrderReadyForShipping is
published before the PROD-3 StockReserved event arrives. -/
theorem scenarioB_run_eval :
    (getOrder scenarioB.orders "order-B").map Order.status =
      some OrderStatus.partiallyFulfilled ∧
    (getOrder scenarioB.orders "order-B").map Order.fulfillableItems =
      some [⟨"PROD-2", 5⟩, ⟨"PROD-3", 3⟩] ∧
    (getOrder scenarioB.orders "order-B").map Order.unfulfillableItems =
      some [⟨"PROD-2", 2⟩] ∧
    getShipments scenarioB.shipments "order-B" =
      some [⟨"order-B", "PROD-2", 5, ShipmentStatus.pending⟩] := by
  decide

/-- C2 counterexample: the completed run of a one-line order whose line is
partially satisfiable (7 of PROD-2 with 5 in stock). The OutOfStock
handler appends to both outcome lists, so the processed count jumps to 2
while the order has 1 requested line; the equality completion check can
never be satisfied afterwards and the order finishes the entire run still
in status "processing" — it never reaches a terminal status. The trace
shows the run published no further event that could complete it. -/
theorem singleSplitLine_never_terminal :
    (getOrder scenarioSplit.orders "order-X").map Order.status =
      some OrderStatus.processing ∧
    (getOrder scenarioSplit.orders "order-X").map
        (fun o => o.fulfillableItems.length + o.unfulfillableItems.length) = some 2 ∧
    (getOrder scenarioSplit.orders "order-X").map (fun o => o.items.length) = some 1 ∧
    scenarioSplit.trace =
      [Event.orderPlaced "order-X" [⟨"PROD-2", 7⟩],
       Event.outOfStock "order-X" "PROD-2" 7 5] := by
  decide

/-- C4 counterexample: in Scenario B, after the inventory loop the order
is already terminal ("partial"), yet delivering the order's own
StockReserved event for the granted PROD-3 line still mutates the order:
its fulfillable list grows from one line to two. A further event for a
terminal order is therefore not rejected or ignored. -/
theorem terminal_order_still_mutated :
    (getOrder scenarioBMid.orders "order-B").map Order.status =
      some OrderStatus.partiallyFulfilled ∧
    OrderStatus.partiallyFulfilled.isTerminal = true ∧
    (getOrder scenarioBMid.orders "order-B").map Order.fulfillableItems =
      some [⟨"PROD-2", 5⟩] ∧
    (getOrder (handleStockReserved scenarioBMid.orders "order-B"
        [⟨"PROD-3", 3⟩]).1 "order-B").map Order.fulfillableItems =
      some [⟨"PROD-2", 5⟩, ⟨"PROD-3", 3⟩] := by
  decide

/-- C8: for every prior state, fresh id and items list, `createOrder`
returns an order whose status is "processing" — unconditionally, before
any reservation outcome can be observed (the OrderPlaced subscriber
suspends before its first effect) — and the returned order is exactly
what `getOrder` retrieves under the assigned id. -/
theorem createOrder_processing_and_retrievable (s : SagaState) (newId : String)
    (items : List OrderItem) :
    (createOrder s newId items).1.status = OrderStatus.processing ∧
    getOrder (createOrder s newId items).2.orders newId =
      some (createOrder s newId items).1 := by
  refine ⟨rfl, ?_⟩
  simpa [createOrder] using
    getOrder_setOrder_self (setOrder s.orders ⟨newId, items, .pending, [], []⟩)
      ⟨newId, items, .processing, [], []⟩

/-- C10: for every starting inventory, an order created with an empty
items list is accepted, and its complete run publishes no StockReserved
and no OutOfStock event (the trace holds only the OrderPlaced record);
consequently neither saga handler — where the completion check lives —
ever runs for it, and the order ends the run still in status
"processing" with empty outcome lists and no shipments: it never reaches
a terminal status. -/
theorem emptyOrder_no_events_stays_processing (inv0 : List InventoryItem)
    (newId : String) :
    (runOrder inv0 newId []).trace = [Event.orderPlaced newId []] ∧
    getOrder (runOrder inv0 newId []).orders newId =
      some ⟨newId, [], OrderStatus.processing, [], []⟩ ∧
    getShipments (runOrder inv0 newId []).shipments newId = none := by
  refine ⟨rfl, ?_, rfl⟩
  simpa [runOrder, createOrder, handleOrderPlacedRun, placeLines] using
    getOrder_setOrder_self (setOrder ([] : List Order) ⟨newId, [], .pending, [], []⟩)
      ⟨newId, [], .processing, [], []⟩

/-- C6: a reservation call on an existing product with
available = quantity - reserved reports success exactly when
available >= requested; on success it reports the pre-reservation
available value and increments reserved by exactly the requested amount,
on failure it reports the pre-reservation available value and leaves the
inventory unchanged; on both paths the per-product flag is clear (the
lock released) when the call returns. -/
theorem tryReserveStock_existing_product (s : InvState) (pid : ProductId) (q : Int)
    (item : InventoryItem) (hfind : findItem s.inventory pid = some item) :
    (tryReserveStock s pid q).1.availableQuantity = item.quantity - item.reserved ∧
    ((tryReserveStock s pid q).1.success = true ↔ item.quantity - item.reserved ≥ q) ∧
    ((tryReserveStock s pid q).1.success = true →
      findItem (tryReserveStock s pid q).2.inventory pid =
        some { item with reserved := item.reserved + q }) ∧
    ((tryReserveStock s pid q).1.success = false →
      (tryReserveStock s pid q).2.inventory = s.inventory) ∧
    getLock (tryReserveStock s pid q).2.lockMap pid = some false := by
  refine ⟨?_, ?_, ?_, ?_, ?_⟩
  · by_cases hav : item.quantity - item.reserved ≥ q <;>
      simp [tryReserveStock, hfind, hav]
  · by_cases hav : item.quantity - item.reserved ≥ q <;>
      simp [tryReserveStock, hfind, hav]
  · intro hs
    by_cases hav : item.quantity - item.reserved ≥ q
    · simp only [tryReserveStock, hfind, if_pos hav]
      exact findItem_updateReserved s.inventory pid (item.reserved + q) item hfind
    · simp [tryReserveStock, hfind, hav] at hs
  · intro hs
    by_cases hav : item.quantity - item.reserved ≥ q
    · simp [tryReserveStock, hfind, hav] at hs
    · simp [tryReserveStock, hfind, hav]
  · by_cases hav : item.quantity - item.reserved ≥ q <;>
      simp [tryReserveStock, hfind, hav, getLock_setLock_same]

/-- Witness for C6: requesting 4 of PROD-1 (10 total, 0 reserved). -/
theorem tryReserveStock_existing_product_witness :
    findItem initialStock "PROD-1" = some ⟨"PROD-1", 10, 0⟩ ∧
    (tryReserveStock ⟨initialStock, []⟩ "PROD-1" 4).1.success = true ∧
    findItem (tryReserveStock ⟨initialStock, []⟩ "PROD-1" 4).2.inventory "PROD-1" =
      some ⟨"PROD-1", 10, 4⟩ ∧
    getLock (tryReserveStock ⟨initialStock, []⟩ "PROD-1" 4).2.lockMap "PROD-1" =
      some false := by
  have h := tryReserveStock_existing_product ⟨initialStock, []⟩ "PROD-1" 4
    ⟨"PROD-1", 10, 0⟩ (by decide)
  have hs : (tryReserveStock ⟨initialStock, []⟩ "PROD-1" 4).1.success = true :=
    h.2.1.mpr (by decide)
  exact ⟨by decide, hs, by simpa using h.2.2.1 hs, h.2.2.2.2⟩

/-- C7: delivering OutOfStock(orderId, productId, requested, available)
for a known non-terminal order appends exactly one unfulfillable line of
quantity requested - available and, exactly when available > 0, also one
fulfillable line of quantity available for the same product. -/
theorem handleOutOfStock_appends (orders : List Order) (oid : String)
    (pid : ProductId) (req avail : Int) (o : Order)
    (hfind : getOrder orders oid = some o)
    (_hnt : o.status.isTerminal = false) :
    ∃ o2, getOrder (handleOutOfStock orders oid pid req avail).1 oid = some o2 ∧
      o2.unfulfillableItems = o.unfulfillableItems ++ [⟨pid, req - avail⟩] ∧
      o2.fulfillableItems =
        o.fulfillableItems ++ (if avail > 0 then [⟨pid, avail⟩] else []) :=
  ⟨_, handleOutOfStock_getOrder orders oid pid req avail o hfind,
    (applyOutOfStock_lists o pid req avail).2.2.1,
    (applyOutOfStock_lists o pid req avail).2.2.2⟩

/-- Witness for C7: a processing order with one requested line, receiving
OutOfStock with requested 4 and available 1. -/
theorem handleOutOfStock_appends_witness :
    getOrder [⟨"ord-1", [⟨"PROD-9", 4⟩], .processing, [], []⟩] "ord-1" =
      some ⟨"ord-1", [⟨"PROD-9", 4⟩], .processing, [], []⟩ ∧
    OrderStatus.processing.isTerminal = false ∧
    (∃ o2, getOrder (handleOutOfStock
        [⟨"ord-1", [⟨"PROD-9", 4⟩], .processing, [], []⟩]
        "ord-1" "PROD-9" 4 1).1 "ord-1" = some o2 ∧
      o2.unfulfillableItems = [] ++ [⟨"PROD-9", 4 - 1⟩] ∧
      o2.fulfillableItems = [] ++ (if (1 : Int) > 0 then [⟨"PROD-9", 1⟩] else [])) :=
  ⟨by decide, by decide,
    handleOutOfStock_appends [⟨"ord-1", [⟨"PROD-9", 4⟩], .processing, [], []⟩]
      "ord-1" "PROD-9" 4 1 ⟨"ord-1", [⟨"PROD-9", 4⟩], .processing, [], []⟩
      (by decide) (by decide)⟩

/-- C9: a reservation attempt against a product id with no inventory
record fails with availableQuantity 0 and leaves the inventory exactly as
it was (no record created); the OutOfStock event the ledger then
publishes carries available 0, so the saga appends the whole requested
quantity as one unfulfillable line and adds no fulfillable portion. -/
theorem unknownProduct_reservation (s : InvState) (pid : ProductId) (q : Int)
    (orders : List Order) (oid : String) (o : Order)
    (hmiss : findItem s.inventory pid = none)
    (hord : getOrder orders oid = some o) :
    (tryReserveStock s pid q).1 = ⟨false, 0⟩ ∧
    (tryReserveStock s pid q).2.inventory = s.inventory ∧
    ∃ o2, getOrder (handleOutOfStock orders oid pid q 0).1 oid = some o2 ∧
      o2.unfulfillableItems = o.unfulfillableItems ++ [⟨pid, q⟩] ∧
      o2.fulfillableItems = o.fulfillableItems := by
  refine ⟨by simp [tryReserveStock, hmiss], by simp [tryReserveStock, hmiss],
    _, handleOutOfStock_getOrder orders oid pid q 0 o hord, ?_, ?_⟩
  · simpa using (applyOutOfStock_lists o pid q 0).2.2.1
  · simpa using (applyOutOfStock_lists o pid q 0).2.2.2

/-- Witness for C9: requesting 4 of the unknown PROD-9 against the seeded
stock, with a processing one-line order receiving the OutOfStock event. -/
theorem unknownProduct_reservation_witness :
    findItem initialStock "PROD-9" = none ∧
    getOrder [⟨"ord-1", [⟨"PROD-9", 4⟩], .processing, [], []⟩] "ord-1" =
      some ⟨"ord-1", [⟨"PROD-9", 4⟩], .processing, [], []⟩ ∧
    (tryReserveStock ⟨initialStock, []⟩ "PROD-9" 4).1 = ⟨false, 0⟩ ∧
    (tryReserveStock ⟨initialStock, []⟩ "PROD-9" 4).2.inventory = initialStock ∧
    (∃ o2, getOrder (handleOutOfStock
        [⟨"ord-1", [⟨"PROD-9", 4⟩], .processing, [], []⟩]
        "ord-1" "PROD-9" 4 0).1 "ord-1" = some o2 ∧
      o2.unfulfillableItems = [] ++ [⟨"PROD-9", 4⟩] ∧
      o2.fulfillableItems = []) := by
  have h := unknownProduct_reservation ⟨initialStock, []⟩ "PROD-9" 4
    [⟨"ord-1", [⟨"PROD-9", 4⟩], .processing, [], []⟩] "ord-1"
    ⟨"ord-1", [⟨"PROD-9", 4⟩], .processing, [], []⟩ (by decide) (by decide)
  exact ⟨by decide, by decide, h.1, h.2.1, h.2.2⟩

theorem isOrderComplete_eq (o : Order) :
    isOrderComplete o = (processedCount o == o.items.length) := rfl

theorem applyStockReserved_char (o : Order) (items : List OrderItem) :
    (applyStockReserved o items).1.items = o.items ∧
    processedCount (applyStockReserved o items).1 =
      processedCount o + items.length ∧
    ((applyStockReserved o items).1.status = o.status ∨
      (isOrderComplete (applyStockReserved o items).1 = true ∧
        (applyStockReserved o items).1.status.isTerminal = true)) := by
  simp only [applyStockReserved]
  split_ifs with hc hu
  · exact ⟨rfl, by simp [processedCount]; omega,
      Or.inr ⟨by simpa [isOrderComplete] using hc, rfl⟩⟩
  · exact ⟨rfl, by simp [processedCount]; omega,
      Or.inr ⟨by simpa [isOrderComplete] using hc, rfl⟩⟩
  · exact ⟨rfl, by simp [processedCount]; omega, Or.inl rfl⟩

theorem applyOutOfStock_char (o : Order) (pid : ProductId) (req avail : Int) :
    (applyOutOfStock o pid req avail).1.items = o.items ∧
    processedCount o + 1 ≤ processedCount (applyOutOfStock o pid req avail).1 ∧
    ((applyOutOfStock o pid req avail).1.status = o.status ∨
      (isOrderComplete (applyOutOfStock o pid req avail).1 = true ∧
        (applyOutOfStock o pid req avail).1.status.isTerminal = true)) := by
  simp only [applyOutOfStock]
  split_ifs with h1 h2 h3 h2 h3 <;>
    first
      | exact ⟨rfl, by simp [processedCount]; omega, Or.inl rfl⟩
      | exact ⟨rfl, by simp [processedCount]; omega,
          Or.inr ⟨by simpa [isOrderComplete] using h2, rfl⟩⟩

/-- C2 amended: for every order, a saga event handler changes the status
only at a moment when the outcome count (fulfillable plus unfulfillable
lines) equals the requested count, and only to a terminal status; and
once the counts are equal no later delivery — StockReserved events from
the ledger always carry a non-empty items list — can make them equal
again, so the terminal transition happens at most once. The completeness
half of the original claim is false: an order with a partially
satisfiable line overshoots the count and never becomes terminal (see
the counterexample). -/
theorem terminal_transition_at_most_once (o : Order) (items : List OrderItem)
    (pid : ProductId) (req avail : Int) (hne : items ≠ []) :
    ((applyStockReserved o items).1.status ≠ o.status →
      isOrderComplete (applyStockReserved o items).1 = true ∧
      (applyStockReserved o items).1.status.isTerminal = true) ∧
    ((applyOutOfStock o pid req avail).1.status ≠ o.status →
      isOrderComplete (applyOutOfStock o pid req avail).1 = true ∧
      (applyOutOfStock o pid req avail).1.status.isTerminal = true) ∧
    (isOrderComplete o = true →
      isOrderComplete (applyStockReserved o items).1 = false ∧
      isOrderComplete (applyOutOfStock o pid req avail).1 = false) := by
  have hlen : 0 < items.length := List.length_pos.mpr hne
  refine ⟨?_, ?_, ?_⟩
  · intro hst
    rcases (applyStockReserved_char o items).2.2 with h | h
    · exact absurd h hst
    · exact h
  · intro hst
    rcases (applyOutOfStock_char o pid req avail).2.2 with h | h
    · exact absurd h hst
    · exact h
  · intro hco
    rw [isOrderComplete_eq] at hco
    simp only [beq_iff_eq] at hco
    constructor
    · rw [isOrderComplete_eq, (applyStockReserved_char o items).1,
        (applyStockReserved_char o items).2.1]
      simp only [beq_eq_false_iff_ne, ne_eq]
      omega
    · have h4 := (applyOutOfStock_char o pid req avail).2.1
      rw [isOrderComplete_eq, (applyOutOfStock_char o pid req avail).1]
      simp only [beq_eq_false_iff_ne, ne_eq]
      omega

/-- Witness for C2 (amended): a processing order with one requested line
and empty outcome lists, receiving a StockReserved for that line or an
OutOfStock with requested 3, available 1. -/
theorem terminal_transition_at_most_once_witness :
    ([(⟨"A", 2⟩ : OrderItem)] ≠ []) ∧
    (((applyStockReserved ⟨"w2", [⟨"A", 2⟩], .processing, [], []⟩
          [⟨"A", 2⟩]).1.status ≠ OrderStatus.processing →
        isOrderComplete (applyStockReserved ⟨"w2", [⟨"A", 2⟩], .processing, [], []⟩
          [⟨"A", 2⟩]).1 = true ∧
        (applyStockReserved ⟨"w2", [⟨"A", 2⟩], .processing, [], []⟩
          [⟨"A", 2⟩]).1.status.isTerminal = true) ∧
      ((applyOutOfStock ⟨"w2", [⟨"A", 2⟩], .processing, [], []⟩
          "B" 3 1).1.status ≠ OrderStatus.processing →
        isOrderComplete (applyOutOfStock ⟨"w2", [⟨"A", 2⟩], .processing, [], []⟩
          "B" 3 1).1 = true ∧
        (applyOutOfStock ⟨"w2", [⟨"A", 2⟩], .processing, [], []⟩
          "B" 3 1).1.status.isTerminal = true) ∧
      (isOrderComplete ⟨"w2", [⟨"A", 2⟩], .processing, [], []⟩ = true →
        isOrderComplete (applyStockReserved ⟨"w2", [⟨"A", 2⟩], .processing, [], []⟩
          [⟨"A", 2⟩]).1 = false ∧
        isOrderComplete (applyOutOfStock ⟨"w2", [⟨"A", 2⟩], .processing, [], []⟩
          "B" 3 1).1 = false)) :=
  ⟨by decide, terminal_transition_at_most_once
    ⟨"w2", [⟨"A", 2⟩], .processing, [], []⟩ [⟨"A", 2⟩] "B" 3 1 (by decide)⟩

/-- C4 amended: once an order is terminal — at which point its processed
outcome count is at least its requested count, since the terminal
transition happens exactly at count equality and the count only grows —
no further StockReserved (which the ledger always publishes with a
non-empty items list) or OutOfStock delivery changes its STATUS. The
events are, however, not rejected: they still append outcome lines to
the order, as the counterexample shows. -/
theorem terminal_status_never_changes (o : Order) (items : List OrderItem)
    (pid : ProductId) (req avail : Int)
    (_hterm : o.status.isTerminal = true)
    (hcnt : o.items.length ≤ processedCount o)
    (hne : items ≠ []) :
    (applyStockReserved o items).1.status = o.status ∧
    (applyOutOfStock o pid req avail).1.status = o.status := by
  have hlen : 0 < items.length := List.length_pos.mpr hne
  constructor
  · rcases (applyStockReserved_char o items).2.2 with h | h
    · exact h
    · exfalso
      have h1 := (applyStockReserved_char o items).1
      have h2 := (applyStockReserved_char o items).2.1
      rw [isOrderComplete_eq, h1, h2] at h
      have := h.1
      simp only [beq_iff_eq] at this
      omega
  · rcases (applyOutOfStock_char o pid req avail).2.2 with h | h
    · exact h
    · exfalso
      have h1 := (applyOutOfStock_char o pid req avail).1
      have h2 := (applyOutOfStock_char o pid req avail).2.1
      rw [isOrderComplete_eq, h1] at h
      have := h.1
      simp only [beq_iff_eq] at this
      omega

/-- Witness for C4 (amended): a cancelled one-line order whose single
line was recorded unfulfillable, receiving further deliveries. -/
theorem terminal_status_never_changes_witness :
    OrderStatus.cancelled.isTerminal = true ∧
    (⟨"w4", [⟨"A", 1⟩], .cancelled, [], [⟨"A", 1⟩]⟩ : Order).items.length ≤
      processedCount ⟨"w4", [⟨"A", 1⟩], .cancelled, [], [⟨"A", 1⟩]⟩ ∧
    ([(⟨"A", 1⟩ : OrderItem)] ≠ []) ∧
    ((applyStockReserved ⟨"w4", [⟨"A", 1⟩], .cancelled, [], [⟨"A", 1⟩]⟩
        [⟨"A", 1⟩]).1.status = OrderStatus.cancelled ∧
      (applyOutOfStock ⟨"w4", [⟨"A", 1⟩], .cancelled, [], [⟨"A", 1⟩]⟩
        "A" 2 1).1.status = OrderStatus.cancelled) :=
  ⟨by decide, by decide, by decide,
    terminal_status_never_changes ⟨"w4", [⟨"A", 1⟩], .cancelled, [], [⟨"A", 1⟩]⟩
      [⟨"A", 1⟩] "A" 2 1 (by decide) (by decide) (by decide)⟩

theorem deliverPubs_trace (pubs : List Event) (s : SagaState) :
    ∃ ev, (deliverPubs s pubs).trace = s.trace ++ ev ∧
      ∀ e ∈ ev, e.isStockReserved = false ∧ e.isOutOfStock = false := by
  induction pubs generalizing s with
  | nil => exact ⟨[], by simp [deliverPubs], by simp⟩
  | cons p rest ih =>
    cases p with
    | orderPlaced oid items =>
      obtain ⟨ev, hev, hall⟩ := ih s
      exact ⟨ev, by simpa [deliverPubs] using hev, hall⟩
    | stockReserved oid items =>
      obtain ⟨ev, hev, hall⟩ := ih s
      exact ⟨ev, by simpa [deliverPubs] using hev, hall⟩
    | outOfStock oid pid req avail =>
      obtain ⟨ev, hev, hall⟩ := ih s
      exact ⟨ev, by simpa [deliverPubs] using hev, hall⟩
    | orderReadyForShipping oid items =>
      obtain ⟨ev, hev, hall⟩ := ih (publishRFS s oid items)
      refine ⟨Event.orderReadyForShipping oid items :: ev, ?_, ?_⟩
      · have : (publishRFS s oid items).trace =
            s.trace ++ [Event.orderReadyForShipping oid items] := rfl
        rw [show deliverPubs s (Event.orderReadyForShipping oid items :: rest) =
            deliverPubs (publishRFS s oid items) rest from rfl, hev, this]
        simp
      · intro e he
        rcases List.mem_cons.mp he with rfl | he
        · exact ⟨rfl, rfl⟩
        · exact hall e he

theorem publishOOS_trace (s : SagaState) (oid : String) (pid : ProductId)
    (req avail : Int) :
    ∃ ev, (publishOOS s oid pid req avail).trace =
        s.trace ++ (Event.outOfStock oid pid req avail :: ev) ∧
      ∀ e ∈ ev, e.isStockReserved = false ∧ e.isOutOfStock = false := by
  obtain ⟨ev, hev, hall⟩ := deliverPubs_trace
    (handleOutOfStock s.orders oid pid req avail).2
    { s with trace := s.trace ++ [Event.outOfStock oid pid req avail],
             orders := (handleOutOfStock s.orders oid pid req avail).1 }
  refine ⟨ev, ?_, hall⟩
  have hasc : s.trace ++ (Event.outOfStock oid pid req avail :: ev) =
      (s.trace ++ [Event.outOfStock oid pid req avail]) ++ ev := by simp
  rw [hasc]
  exact hev

theorem publishSR_trace (s : SagaState) (oid : String) (items : List OrderItem) :
    ∃ ev, (publishSR s oid items).trace =
        s.trace ++ (Event.stockReserved oid items :: ev) ∧
      ∀ e ∈ ev, e.isStockReserved = false ∧ e.isOutOfStock = false := by
  obtain ⟨ev, hev, hall⟩ := deliverPubs_trace
    (handleStockReserved s.orders oid items).2
    { s with trace := s.trace ++ [Event.stockReserved oid items],
             orders := (handleStockReserved s.orders oid items).1 }
  refine ⟨ev, ?_, hall⟩
  have hasc : s.trace ++ (Event.stockReserved oid items :: ev) =
      (s.trace ++ [Event.stockReserved oid items]) ++ ev := by simp
  rw [hasc]
  exact hev

theorem placeLines_trace (lines : List OrderItem) (s : SagaState) (oid : String)
    (acc : List OrderItem) :
    ∃ ev, (placeLines s oid lines acc).1.trace = s.trace ++ ev ∧
      ∀ e ∈ ev, e.isStockReserved = false := by
  induction lines generalizing s acc with
  | nil => exact ⟨[], by simp [placeLines], by simp⟩
  | cons item rest ih =>
    by_cases hs : (tryReserveStock s.inv item.productId item.quantity).1.success = true
    · obtain ⟨ev, hev, hall⟩ :=
        ih { s with inv := (tryReserveStock s.inv item.productId item.quantity).2 }
          (acc ++ [⟨item.productId, item.quantity⟩])
      refine ⟨ev, ?_, hall⟩
      simp only [placeLines, hs, if_true]
      exact hev
    · have hs' : (tryReserveStock s.inv item.productId item.quantity).1.success = false := by
        simpa using hs
      obtain ⟨ev2, hev2, hall2⟩ := publishOOS_trace
        { s with inv := (tryReserveStock s.inv item.productId item.quantity).2 }
        oid item.productId item.quantity
        (tryReserveStock s.inv item.productId item.quantity).1.availableQuantity
      obtain ⟨ev3, hev3, hall3⟩ :=
        ih (publishOOS
          { s with inv := (tryReserveStock s.inv item.productId item.quantity).2 }
          oid item.productId item.quantity
          (tryReserveStock s.inv item.productId item.quantity).1.availableQuantity) acc
      refine ⟨Event.outOfStock oid item.productId item.quantity
          (tryReserveStock s.inv item.productId item.quantity).1.availableQuantity ::
          (ev2 ++ ev3), ?_, ?_⟩
      · simp only [placeLines, hs', if_false, Bool.false_eq_true]
        rw [hev3, hev2]
        simp
      · intro e he
        rcases List.mem_cons.mp he with rfl | he
        · rfl
        · rcases List.mem_append.mp he with he | he
          · exact (hall2 e he).1
          · exact hall3 e he

/-- C5: in the run of the ledger's OrderPlaced handler, line items are
processed strictly in request order one at a time (the run is a left
fold over the requested list), and the published event trace decomposes
as: a first segment containing no StockReserved event (all the OutOfStock
events for the order live there, published synchronously inside the
loop), optionally followed by a single StockReserved event carrying a
non-empty granted-lines list — published only if at least one line was
fully granted — after which no further OutOfStock or StockReserved event
for this run occurs. Dispatch is synchronous, so trace order is exactly
the order in which the saga observes the events. -/
theorem oos_before_single_stockReserved (s : SagaState) (oid : String)
    (items : List OrderItem) :
    ∃ pre post,
      (handleOrderPlacedRun s oid items).trace = s.trace ++ pre ++ post ∧
      (∀ e ∈ pre, e.isStockReserved = false) ∧
      (post = [] ∨ ∃ its rest, its ≠ [] ∧
        post = Event.stockReserved oid its :: rest ∧
        ∀ e ∈ rest, e.isStockReserved = false ∧ e.isOutOfStock = false) := by
  obtain ⟨pre, hpre, hallpre⟩ := placeLines_trace items s oid []
  by_cases hres : (placeLines s oid items []).2.length > 0
  · obtain ⟨ev, hev, hall⟩ :=
      publishSR_trace (placeLines s oid items []).1 oid (placeLines s oid items []).2
    refine ⟨pre, Event.stockReserved oid (placeLines s oid items []).2 :: ev, ?_,
      hallpre, Or.inr ⟨(placeLines s oid items []).2, ev, ?_, rfl, hall⟩⟩
    · simp only [handleOrderPlacedRun, if_pos hres]
      rw [hev, hpre]
    · intro h
      rw [h] at hres
      simp at hres
  · refine ⟨pre, [], ?_, hallpre, Or.inl rfl⟩
    simp only [handleOrderPlacedRun, if_neg hres]
    rw [hpre]
    simp

end Backend
